import Mathlib

/-!
Shallow embedding of the advanced AI recommendation subsystem of the
Beginnerinvestorhub/Tools repository, translated from
`src/ai_microservice/models/advanced_ai.py` and
`src/tools/services/ai_microservice/src/main.py`.

Modelling conventions:
* Python floats are modelled as exact rationals (`ℚ`).
* A Python `dict` keyed by content id is modelled as an insertion-ordered
  association list (`List (Nat × ℚ)`); `d.items()` iterates in insertion
  order, which the list order reproduces.
* `sorted(xs, key=lambda x: x[1], reverse=True)` is Python's stable sort in
  descending score order; it is modelled by `sortDesc`, a stable descending
  insertion sort (equal scores keep their relative order).
* Fallible code (`try`/`except`, sklearn calls that may raise) is modelled
  with `Option`/`Except` values.
-/

/-- Stable descending sort by score, modelling
`sorted(xs, key=lambda x: x[1], reverse=True)` (Python's `sorted` is stable,
and `reverse=True` preserves the original order of equal keys). -/
def sortDesc (l : List (Nat × ℚ)) : List (Nat × ℚ) :=
  l.insertionSort (fun a b => b.2 ≤ a.2)

/-- Python dict assignment `d[k] = v` on an insertion-ordered association
list: an existing key keeps its position, a new key is appended. -/
def dictSet : List (Nat × ℚ) → Nat → ℚ → List (Nat × ℚ)
  | [], k, v => [(k, v)]
  | p :: rest, k, v => if p.1 = k then (k, v) :: rest else p :: dictSet rest k v

/-- Python `d[k] = d.get(k, 0) + v` (initialise-to-zero then `+=`), as in
`recommendations[content_id] += score * similarity_score` and the
content-based branch of `_combine_recommendations`. -/
def dictAdd : List (Nat × ℚ) → Nat → ℚ → List (Nat × ℚ)
  | [], k, v => [(k, v)]
  | p :: rest, k, v => if p.1 = k then (p.1, p.2 + v) :: rest else p :: dictAdd rest k v

/-- Python `d.get(k)` on an association list. -/
def dictGet : List (Nat × ℚ) → Nat → Option ℚ
  | [], _ => none
  | p :: rest, k => if p.1 = k then some p.2 else dictGet rest k

/-- Keys of an association list, in insertion order. -/
def dictKeys (m : List (Nat × ℚ)) : List Nat := m.map Prod.fst

/-- Score attached to `c` in a result list, `0` when `c` is absent. -/
def listVal (l : List (Nat × ℚ)) (c : Nat) : ℚ := (dictGet l c).getD 0

/-! ### Hybrid orchestrator fusion (`AdvancedAIOrchestrator`, advanced_ai.py 619-653) -/

/-- Weight given to collaborative-filtering scores
(`cf_weight = 0.6 if engagement_score > 0.5 else 0.4`, line 624). -/
def cf_weight (engagement_score : ℚ) : ℚ :=
  if engagement_score > 1/2 then 6/10 else 4/10

/-- Embeds `AdvancedAIOrchestrator._combine_recommendations` (lines 619-638):
collaborative scores are written into the dict scaled by `cf_weight`,
content-based scores are added scaled by `1 - cf_weight`, then the dict items
are stable-sorted by descending score and truncated to 5. -/
def combine_recommendations (cf_recs cb_recs : List (Nat × ℚ))
    (engagement_score : ℚ) : List (Nat × ℚ) :=
  let cfw := cf_weight engagement_score
  let cbw := 1 - cfw
  let cfPart := cf_recs.foldl (fun m p => dictSet m p.1 (p.2 * cfw)) []
  let combined := cb_recs.foldl (fun m p => dictAdd m p.1 (p.2 * cbw)) cfPart
  (sortDesc combined).take 5

/-- Embeds `AdvancedAIOrchestrator._calculate_overall_confidence`
(lines 640-653): `min(1.0, 0.3 + 0.2·[cf nonempty] + 0.2·[cb nonempty]
+ 0.3·engagement)`. -/
def calculate_overall_confidence (cf_recs cb_recs : List (Nat × ℚ))
    (engagement_score : ℚ) : ℚ :=
  min 1 (3/10 + (if cf_recs.isEmpty then 0 else 2/10)
    + (if cb_recs.isEmpty then 0 else 2/10) + engagement_score * (3/10))

/-! ### Collaborative filtering engine (`CollaborativeFilteringEngine`, advanced_ai.py 87-123) -/

/-- Built state of `CollaborativeFilteringEngine`: `users` is the row index of
the pivoted user-item matrix (only users with at least one interaction get a
row), `items` its column labels (pandas `pivot_table` sorts them ascending),
`rating i c` the matrix entry for user row `i` and content id `c`, and
`sim i j` the entry of the precomputed user-similarity matrix. -/
structure CFState where
  users : List String
  items : List Nat
  rating : Nat → Nat → ℚ
  sim : Nat → Nat → ℚ

/-- Descending argsort, modelling `np.argsort(vals)[::-1]`. `np.argsort`
leaves the order of exactly-equal entries unspecified (quicksort); the model
determinises ties stably by ascending position. -/
def argsortDesc (vals : List ℚ) : List Nat :=
  (sortDesc vals.enum).map Prod.fst

/-- Row `user_idx` of the user-similarity matrix
(`user_similarities = self.user_similarity_matrix[user_idx]`). -/
def cfUserSims (s : CFState) (user_idx : Nat) : List ℚ :=
  (List.range s.users.length).map (fun j => s.sim user_idx j)

/-- Embeds `similar_users = np.argsort(user_similarities)[::-1][1:6]`
(line 100): the head of the descending argsort is dropped and the next
five indices are kept. -/
def cfSimilarUsers (s : CFState) (user_idx : Nat) : List Nat :=
  ((argsortDesc (cfUserSims s user_idx)).drop 1).take 5

/-- Embeds `CollaborativeFilteringEngine.get_user_recommendations`
(lines 87-123) on a built matrix: a user without a matrix row gets `[]`;
otherwise, for each selected similar user and each content column with
neighbor score above `0.5` that the requesting user scored `0`, the product
`score × similarity` is accumulated into the recommendations dict, which is
then stable-sorted descending and truncated to `top_k`. -/
def get_user_recommendations (s : CFState) (user_id : String)
    (top_k : Nat := 5) : List (Nat × ℚ) :=
  if user_id ∈ s.users then
    let user_idx := s.users.indexOf user_id
    let contribs := (cfSimilarUsers s user_idx).flatMap (fun n =>
      s.items.filterMap (fun c =>
        if 1/2 < s.rating n c ∧ s.rating user_idx c = 0 then
          some (c, s.rating n c * s.sim user_idx n)
        else none))
    let recommendations := contribs.foldl (fun m p => dictAdd m p.1 p.2) []
    (sortDesc recommendations).take top_k
  else []

/-- Closed form of the accumulated collaborative score of content `c`:
the sum over the selected neighbors that scored `c` above `0.5` of
`neighbor score × similarity to the requesting user`. -/
def cfNeighborSum (s : CFState) (user_idx c : Nat) (neighbors : List Nat) : ℚ :=
  ((neighbors.filter (fun n => 1/2 < s.rating n c)).map
    (fun n => s.rating n c * s.sim user_idx n)).sum

/-! ### Content-based engine (`ContentBasedEngine`, advanced_ai.py 172-225) -/

/-- Row of the content catalog (`learning_content` columns used by the two
recommendation functions). -/
structure ContentRow where
  id : Nat
  title : String
  content_type : String
  difficulty_level : String
  estimated_duration_minutes : ℚ
  points_value : ℚ
  tags : List String
deriving DecidableEq

/-- User profile fields read by `ContentBasedEngine._calculate_content_score`. -/
structure CBUserProfile where
  learning_style : Option String
  preferred_topics : List String

/-- Embeds `ContentBasedEngine._calculate_content_score` (lines 200-225):
`0.3` for a learning-style/content-type match (first branch only), `0.2` per
distinct shared topic, `0.1` for duration at most 20 minutes, plus
`min(points/200, 0.2)`. -/
def calculate_content_score (content : ContentRow)
    (user_profile : CBUserProfile) : ℚ :=
  (if user_profile.learning_style = some "kinesthetic"
      ∧ content.content_type = "challenge" then 3/10
   else if user_profile.learning_style = some "visual"
      ∧ (content.content_type = "video" ∨ content.content_type = "lesson") then 3/10
   else if user_profile.learning_style = some "reading"
      ∧ content.content_type = "article" then 3/10
   else 0)
  + ((user_profile.preferred_topics.dedup.filter
        (fun t => t ∈ content.tags)).length : ℚ) * (2/10)
  + (if content.estimated_duration_minutes ≤ 20 then 1/10 else 0)
  + min (content.points_value / 200) (2/10)

/-- Embeds `ContentBasedEngine.get_content_recommendations` (lines 172-198)
on a built feature table: completed content is filtered out, every remaining
item is scored by `_calculate_content_score`, and the scored list is
stable-sorted descending and truncated to `top_k`. The function applies no
difficulty filter of any kind. -/
def get_content_recommendations (content_features : List ContentRow)
    (user_profile : CBUserProfile) (completed_content_ids : List Nat)
    (top_k : Nat := 5) : List (Nat × ℚ) :=
  let available := content_features.filter
    (fun c => c.id ∉ completed_content_ids)
  if available.isEmpty then []
  else
    (sortDesc (available.map
      (fun c => (c.id, calculate_content_score c user_profile)))).take top_k

/-! ### Rule-based recommender (`AIRecommendationEngine.recommend_content`,
tools/services/ai_microservice/src/main.py 306-390) -/

/-- Preference filter of `recommend_content` step 2 (main.py 341-360): an
item passes when it is neither completed nor in progress, survives the
difficulty gate (`< 5` completed → beginner only; `≥ 10` completed → no
beginner; each skip written as its negated `continue` condition, the `elif`
chain being equivalent to the conjunction of both), matches the
content-type preference when one is set, and shares a topic with the
nonempty user topic set. -/
def preference_pass (completed_content_ids in_progress_content_ids : List Nat)
    (preferred_content_types preferred_topics : List String)
    (c : ContentRow) : Prop :=
  c.id ∉ completed_content_ids ∧ c.id ∉ in_progress_content_ids
  ∧ ¬(completed_content_ids.length < 5 ∧ c.difficulty_level ≠ "beginner")
  ∧ ¬(10 ≤ completed_content_ids.length ∧ c.difficulty_level = "beginner")
  ∧ ¬(preferred_content_types ≠ [] ∧ c.content_type ∉ preferred_content_types)
  ∧ (preferred_topics ≠ [] ∧ c.tags.any (fun t => t ∈ preferred_topics))

instance (ccids ipids : List Nat) (pct ptp : List String) (c : ContentRow) :
    Decidable (preference_pass ccids ipids pct ptp c) := by
  unfold preference_pass
  infer_instance

/-- Embeds `AIRecommendationEngine.recommend_content` (main.py 306-390):
first every in-progress item (no filters at all), then items passing
`preference_pass`, with a fallback to the first five catalog items not yet
completed when nothing was collected, truncated to 3. -/
def recommend_content (content_data : List ContentRow)
    (completed_content_ids in_progress_content_ids : List Nat)
    (preferred_content_types preferred_topics : List String) :
    List ContentRow :=
  let in_progress_recs := content_data.filter
    (fun c => c.id ∈ in_progress_content_ids)
  let preference_recs := content_data.filter
    (fun c => preference_pass completed_content_ids in_progress_content_ids
      preferred_content_types preferred_topics c)
  let recommendations := in_progress_recs ++ preference_recs
  let final := if recommendations.isEmpty then
      (content_data.take 5).filter (fun c => c.id ∉ completed_content_ids)
    else recommendations
  final.take 3

/-! ### Behavioral analytics engine (`BehavioralAnalyticsEngine`, advanced_ai.py 332-391) -/

/-- Per-user feature dict fields read by `_prepare_user_features`. -/
structure UserFeatures where
  total_content : ℚ
  completed_content : ℚ
  avg_time_spent : ℚ
  active_days : ℚ
  total_events : ℚ
  completion_rate : ℚ
  time_horizon : Option String
  learning_style : Option String

/-- Fitted state of `BehavioralAnalyticsEngine`. The three model fields are
the opaque fitted estimators: `engagement_model` is
`GradientBoostingRegressor.predict` (a raw regression value, unbounded),
`completion_model_proba` and `churn_model_proba` are the class-1 entries of
`RandomForestClassifier.predict_proba`. `encoders` maps a categorical column
to its fitted `LabelEncoder` (absent when never fitted), which maps a value
to its code (absent on an unseen category, where the code falls back to 0).
`scaler_transform` is `StandardScaler.transform`; `none` models a raised
exception (for example an unfitted scaler), caught by the `except` in
`_prepare_user_features`. -/
structure BehavioralEngine where
  engagement_model : List ℚ → ℚ
  completion_model_proba : List ℚ → ℚ
  churn_model_proba : List ℚ → ℚ
  encoders : String → Option (String → Option ℚ)
  scaler_transform : List ℚ → Option (List ℚ)

/-- Categorical encoding step of `_prepare_user_features` (lines 377-386):
`0` when the column has no fitted encoder or the value is missing or unseen. -/
def encode_cat (encoders : String → Option (String → Option ℚ))
    (col : String) (v : Option String) : ℚ :=
  match encoders col, v with
  | some enc, some sv => (enc sv).getD 0
  | _, _ => 0

/-- Embeds `BehavioralAnalyticsEngine._prepare_user_features` (lines 365-391):
the six numeric fields and two encoded categoricals are assembled and passed
through the scaler; any raised exception yields `none`. -/
def prepare_user_features (e : BehavioralEngine) (uf : UserFeatures) :
    Option (List ℚ) :=
  e.scaler_transform
    [uf.total_content, uf.completed_content, uf.avg_time_spent,
     uf.active_days, uf.total_events, uf.completion_rate,
     encode_cat e.encoders "time_horizon" uf.time_horizon,
     encode_cat e.encoders "learning_style" uf.learning_style]

/-- Embeds `predict_engagement` (lines 332-341): the raw regressor output on
prepared features, `0.5` when feature preparation failed. No clamping. -/
def predict_engagement (e : BehavioralEngine) (uf : UserFeatures) : ℚ :=
  match prepare_user_features e uf with
  | some f => e.engagement_model f
  | none => 1/2

/-- Embeds `predict_completion_probability` (lines 343-352). -/
def predict_completion_probability (e : BehavioralEngine)
    (uf : UserFeatures) : ℚ :=
  match prepare_user_features e uf with
  | some f => e.completion_model_proba f
  | none => 1/2

/-- Embeds `predict_churn_risk` (lines 354-363). -/
def predict_churn_risk (e : BehavioralEngine) (uf : UserFeatures) : ℚ :=
  match prepare_user_features e uf with
  | some f => e.churn_model_proba f
  | none => 1/2

/-! ### Nudge optimization engine (`NudgeOptimizationEngine`, advanced_ai.py 393-544) -/

/-- One row of the nudge effectiveness query (`nudge_logs` restricted to the
trailing 30 days with a recorded user response); only the two columns used by
`_calculate_nudge_confidence` are modelled. -/
structure NudgeRecord where
  nudge_type : String
  effectiveness_score : ℚ

/-- Behavioral fields read by `_get_user_segment`; `none` models a key absent
from the `behavior_data` dict (Python `dict.get` default applies). -/
structure BehaviorData where
  engagement_score : Option ℚ
  completion_rate : Option ℚ
  learning_velocity : Option ℚ

/-- Embeds `NudgeOptimizationEngine._get_user_segment` (lines 474-486),
first match wins; `engagement_score` and `completion_rate` default to `0.5`,
`learning_velocity` to `0`. -/
def get_user_segment (behavior_data : BehaviorData) : String :=
  let engagement := behavior_data.engagement_score.getD (1/2)
  let completion_rate := behavior_data.completion_rate.getD (1/2)
  if engagement > 7/10 ∧ completion_rate > 8/10 then "high_performer"
  else if engagement < 3/10 ∨ completion_rate < 3/10 then "at_risk"
  else if behavior_data.learning_velocity.getD 0 > 2 then "fast_learner"
  else "steady_learner"

/-- The static `segment_preferences` table of `_get_best_nudge_type`
(lines 494-499). -/
def segment_preferences : List (String × String) :=
  [("high_performer", "social"), ("at_risk", "motivational"),
   ("fast_learner", "educational"), ("steady_learner", "urgency")]

/-- Embeds `NudgeOptimizationEngine._get_best_nudge_type` (lines 488-501):
`"motivational"` on an empty effectiveness frame, otherwise the static
table entry for the segment (default `"motivational"`); the effectiveness
values themselves are never consulted. -/
def get_best_nudge_type (user_segment : String)
    (effectiveness_data : List NudgeRecord) : String :=
  if effectiveness_data.isEmpty then "motivational"
  else ((segment_preferences.find?
    (fun p => p.1 = user_segment)).map Prod.snd).getD "motivational"

/-- Embeds `NudgeOptimizationEngine._calculate_nudge_confidence`
(lines 526-544): `0.5` on an empty frame or an empty slice for the nudge
type, otherwise the mean effectiveness of the slice scaled by
`min(1, sample_size/50)`. The `user_segment` argument is accepted but never
read. -/
def calculate_nudge_confidence (nudge_type : String) (user_segment : String)
    (effectiveness_data : List NudgeRecord) : ℚ :=
  if effectiveness_data.isEmpty then 1/2
  else
    let type_data := effectiveness_data.filter
      (fun r => r.nudge_type = nudge_type)
    if type_data.isEmpty then 1/2
    else
      ((type_data.map (fun r => r.effectiveness_score)).sum / type_data.length)
        * min 1 ((type_data.length : ℚ) / 50)

/-- Profile fields read by `_generate_personalized_nudge`; only `user_id`
participates in template selection. -/
structure NudgeUserProfile where
  user_id : Option String
  preferred_topics : List String
  risk_profile : Option String
  investment_goals : List String

/-- The `nudge_variants` table (lines 399-420). -/
def nudge_variants (nudge_type : String) : List String :=
  if nudge_type = "motivational" then
    ["You\x27re doing great! Ready for your next lesson?",
     "Keep up the momentum! Your next lesson is waiting.",
     "You\x27re on fire! Continue your learning streak."]
  else if nudge_type = "educational" then
    ["Master {topic} with your next lesson on {content_title}.",
     "Expand your {risk_profile} investment knowledge with {content_title}.",
     "Learn {content_title} to achieve your {investment_goal} goals."]
  else if nudge_type = "social" then
    ["Join thousands of learners who completed {content_title}.",
     "You\x27re in the top {percentile}% of learners! Keep going.",
     "Other {risk_profile} investors loved this lesson: {content_title}"]
  else if nudge_type = "urgency" then
    ["Don\x27t lose your {streak_days}-day learning streak!",
     "Quick 15-minute lesson to maintain your progress.",
     "Your learning path is 85% complete - finish strong!"]
  else
    ["You\x27re doing great! Ready for your next lesson?",
     "Keep up the momentum! Your next lesson is waiting.",
     "You\x27re on fire! Continue your learning streak."]

/-- Template-selection step of `_generate_personalized_nudge`
(lines 505-509): `template_idx = hash(user_profile.get('user_id', ''))
% len(templates)`. `stringHash` stands for the process's fixed built-in
string hash; nothing else of the profile or of the behavior data is read
by the selection. -/
def select_template (stringHash : String → Nat) (nudge_type : String)
    (user_profile : NudgeUserProfile) : String :=
  let templates := nudge_variants nudge_type
  templates.getD (stringHash (user_profile.user_id.getD "") % templates.length) ""

/-! ### Orchestrator error containment (`AdvancedAIOrchestrator.get_advanced_recommendations`,
advanced_ai.py 578-617) -/

/-- The three behavioral predictions of the response object. -/
structure Predictions where
  engagement : ℚ
  completion_probability : ℚ
  churn_risk : ℚ
deriving DecidableEq

/-- The optimized-nudge dict; the degraded default (line 615) carries only
the first three keys, so the last two are optional. -/
structure NudgeResult where
  message : String
  type : String
  confidence : ℚ
  user_segment : Option String
  variant_id : Option String
deriving DecidableEq

/-- The response object of `get_advanced_recommendations`. -/
structure AdvancedRecommendations where
  recommendations : List (Nat × ℚ)
  predictions : Predictions
  optimized_nudge : NudgeResult
  confidence_score : ℚ
deriving DecidableEq

/-- The degraded response of the orchestrator's `except` branch
(lines 610-617). -/
def defaultAdvancedResponse : AdvancedRecommendations :=
  { recommendations := []
    predictions := ⟨1/2, 1/2, 1/2⟩
    optimized_nudge := ⟨"Continue learning!", "motivational", 1/2, none, none⟩
    confidence_score := 3/10 }

/-- Embeds `AdvancedAIOrchestrator.get_advanced_recommendations`
(lines 578-617). Each sub-engine call is modelled by an `Except` value
(`.error` models a raised exception at that call site); any raise transfers
control to the `except` branch, which returns the degraded default instead
of propagating. When nothing raises, the results are fused and packaged. -/
def get_advanced_recommendations
    (cf_recs cb_recs : Except String (List (Nat × ℚ)))
    (engagement_pred completion_pred churn_risk : Except String ℚ)
    (optimized_nudge : Except String NudgeResult) : AdvancedRecommendations :=
  match cf_recs, cb_recs, engagement_pred, completion_pred, churn_risk,
      optimized_nudge with
  | .ok cf, .ok cb, .ok e, .ok comp, .ok churn, .ok nudge =>
    { recommendations := combine_recommendations cf cb e
      predictions := ⟨e, comp, churn⟩
      optimized_nudge := nudge
      confidence_score := calculate_overall_confidence cf cb e }
  | _, _, _, _, _, _ => defaultAdvancedResponse

/-! ### Model lifecycle (`AdvancedAIOrchestrator.initialize`, advanced_ai.py 558-576) -/

/-- Live model state of the in-process singleton orchestrator; each field
holds the version stamp of the data snapshot its current contents were built
from (`none` before any build). -/
structure ModelState where
  user_item_matrix : Option Nat
  content_features : Option Nat
  behavioral_models : Option Nat
  last_model_update : Option Nat
deriving DecidableEq

/-- Embeds `AdvancedAIOrchestrator.initialize` building version `v` as its
sequence of in-place mutations of the live state: the collaborative matrix
build, the content-feature build, the behavioral-model training, then the
timestamp update. Each of the three builds awaits the database, so the event
loop may run concurrent readers between consecutive steps. -/
def initSteps (v : Nat) : List (ModelState → ModelState) :=
  [fun s => { s with user_item_matrix := some v },
   fun s => { s with content_features := some v },
   fun s => { s with behavioral_models := some v },
   fun s => { s with last_model_update := some v }]

/-- Runs a prefix of the mutation sequence on a state: the state a concurrent
reader observes after that many completed steps. -/
def runSteps (fs : List (ModelState → ModelState)) (s : ModelState) : ModelState :=
  fs.foldl (fun t f => f t) s

/-- A state is coherent when all three engine components come from one and
the same model version — what an atomic snapshot swap would guarantee. -/
def coherentState (s : ModelState) : Prop :=
  s.user_item_matrix = s.content_features
    ∧ s.content_features = s.behavioral_models

/-! ### Toolkit lemmas about the dict and sort models -/

instance : IsTotal (Nat × ℚ) (fun a b => b.2 ≤ a.2) :=
  ⟨fun a b => le_total b.2 a.2⟩

instance : IsTrans (Nat × ℚ) (fun a b => b.2 ≤ a.2) :=
  ⟨fun _ _ _ h1 h2 => le_trans h2 h1⟩

lemma sortDesc_perm (l : List (Nat × ℚ)) : List.Perm (sortDesc l) l :=
  List.perm_insertionSort _ l

lemma sortDesc_sorted (l : List (Nat × ℚ)) :
    (sortDesc l).Sorted (fun a b => b.2 ≤ a.2) :=
  List.sorted_insertionSort _ l

lemma filter_orderedInsert (s : ℚ) (a : Nat × ℚ) (l : List (Nat × ℚ)) :
    ((l.orderedInsert (fun a b => b.2 ≤ a.2) a).filter (fun p => p.2 = s)) =
      if a.2 = s then a :: l.filter (fun p => p.2 = s)
      else l.filter (fun p => p.2 = s) := by
  induction l with
  | nil => by_cases h : a.2 = s <;> simp [List.orderedInsert, h]
  | cons b l ih =>
    by_cases hr : b.2 ≤ a.2
    · have e1 : (b :: l).orderedInsert (fun a b => b.2 ≤ a.2) a = a :: b :: l := by
        simp [List.orderedInsert, hr]
      rw [e1]
      by_cases h : a.2 = s <;> simp [List.filter_cons, h]
    · have e2 : (b :: l).orderedInsert (fun a b => b.2 ≤ a.2) a
          = b :: l.orderedInsert (fun a b => b.2 ≤ a.2) a := by
        simp [List.orderedInsert, hr]
      rw [e2]
      have hba : a.2 < b.2 := lt_of_not_le hr
      by_cases h : a.2 = s
      · have hb : ¬(b.2 = s) := by
          intro hbs
          rw [h, ← hbs] at hba
          exact lt_irrefl _ hba
        simp [List.filter_cons, hb, ih, h]
      · simp [List.filter_cons, ih, h]

lemma filter_sortDesc (s : ℚ) (l : List (Nat × ℚ)) :
    ((sortDesc l).filter (fun p => p.2 = s)) = l.filter (fun p => p.2 = s) := by
  induction l with
  | nil => simp [sortDesc, List.insertionSort]
  | cons a l ih =>
    show ((List.orderedInsert _ a (List.insertionSort _ l)).filter _) = _
    rw [filter_orderedInsert]
    by_cases h : a.2 = s <;> simp [h, List.filter_cons] <;> exact ih

lemma dictKeys_cons (p : Nat × ℚ) (m : List (Nat × ℚ)) :
    dictKeys (p :: m) = p.1 :: dictKeys m := rfl

lemma dictGet_dictSet (m : List (Nat × ℚ)) (k : Nat) (v : ℚ) (c : Nat) :
    dictGet (dictSet m k v) c = if c = k then some v else dictGet m c := by
  induction m with
  | nil =>
    by_cases h : c = k
    · simp [dictSet, dictGet, h]
    · simp [dictSet, dictGet, h, Ne.symm h]
  | cons p rest ih =>
    by_cases hpk : p.1 = k
    · by_cases hc : c = k
      · simp [dictSet, dictGet, hpk, hc]
      · simp [dictSet, dictGet, hpk, hc, Ne.symm hc]
    · by_cases hpc : p.1 = c
      · have hck : ¬(c = k) := fun hh => hpk (hpc.trans hh)
        simp [dictSet, dictGet, hpk, hpc, hck]
      · simp [dictSet, dictGet, hpk, hpc, ih]

lemma dictGet_dictAdd (m : List (Nat × ℚ)) (k : Nat) (v : ℚ) (c : Nat) :
    dictGet (dictAdd m k v) c =
      if c = k then some ((dictGet m c).getD 0 + v) else dictGet m c := by
  induction m with
  | nil =>
    by_cases h : c = k
    · simp [dictAdd, dictGet, h]
    · simp [dictAdd, dictGet, h, Ne.symm h]
  | cons p rest ih =>
    by_cases hpk : p.1 = k
    · by_cases hc : c = k
      · simp [dictAdd, dictGet, hpk, hc, hpk.trans hc.symm]
      · simp [dictAdd, dictGet, hpk, hc, Ne.symm hc]
    · by_cases hpc : p.1 = c
      · have hck : ¬(c = k) := fun hh => hpk (hpc.trans hh)
        simp [dictAdd, dictGet, hpk, hpc, hck]
      · simp [dictAdd, dictGet, hpk, hpc, ih]

lemma dictKeys_dictSet (m : List (Nat × ℚ)) (k : Nat) (v : ℚ) :
    dictKeys (dictSet m k v) =
      if k ∈ dictKeys m then dictKeys m else dictKeys m ++ [k] := by
  induction m with
  | nil => simp [dictSet, dictKeys]
  | cons p rest ih =>
    by_cases hpk : p.1 = k
    · simp [dictSet, hpk, dictKeys_cons]
    · have hne : ¬(k = p.1) := fun h => hpk h.symm
      simp only [dictSet, if_neg hpk]
      rw [dictKeys_cons, dictKeys_cons, ih]
      by_cases hk : k ∈ dictKeys rest
      · simp [hk]
      · simp [hk, hne]

lemma dictKeys_dictAdd (m : List (Nat × ℚ)) (k : Nat) (v : ℚ) :
    dictKeys (dictAdd m k v) =
      if k ∈ dictKeys m then dictKeys m else dictKeys m ++ [k] := by
  induction m with
  | nil => simp [dictAdd, dictKeys]
  | cons p rest ih =>
    by_cases hpk : p.1 = k
    · simp [dictAdd, hpk, dictKeys_cons]
    · have hne : ¬(k = p.1) := fun h => hpk h.symm
      simp only [dictAdd, if_neg hpk]
      rw [dictKeys_cons, dictKeys_cons, ih]
      by_cases hk : k ∈ dictKeys rest
      · simp [hk]
      · simp [hk, hne]

lemma nodup_dictKeys_dictSet {m : List (Nat × ℚ)} (k : Nat) (v : ℚ)
    (h : (dictKeys m).Nodup) : (dictKeys (dictSet m k v)).Nodup := by
  rw [dictKeys_dictSet]
  by_cases hk : k ∈ dictKeys m
  · simpa [hk] using h
  · simpa [hk, List.nodup_append] using h

lemma nodup_dictKeys_dictAdd {m : List (Nat × ℚ)} (k : Nat) (v : ℚ)
    (h : (dictKeys m).Nodup) : (dictKeys (dictAdd m k v)).Nodup := by
  rw [dictKeys_dictAdd]
  by_cases hk : k ∈ dictKeys m
  · simpa [hk] using h
  · simpa [hk, List.nodup_append] using h

lemma dictGet_eq_of_mem : ∀ (m : List (Nat × ℚ)), (dictKeys m).Nodup →
    ∀ {p : Nat × ℚ}, p ∈ m → dictGet m p.1 = some p.2 := by
  intro m
  induction m with
  | nil => intro _ p hp; cases hp
  | cons q rest ih =>
    intro hnd p hp
    have hnd1 : q.1 ∉ dictKeys rest ∧ (dictKeys rest).Nodup := by
      rw [dictKeys_cons] at hnd
      exact List.nodup_cons.mp hnd
    rcases List.mem_cons.mp hp with hq | hrest
    · subst hq; simp [dictGet]
    · have hne : ¬(q.1 = p.1) := by
        intro h
        exact hnd1.1 (h ▸ (by simpa [dictKeys] using List.mem_map_of_mem Prod.fst hrest))
      simp [dictGet, hne, ih hnd1.2 hrest]

lemma dictGet_eq_none_of_not_mem (L : List (Nat × ℚ)) (c : Nat)
    (h : c ∉ L.map Prod.fst) : dictGet L c = none := by
  induction L with
  | nil => rfl
  | cons p L ih =>
    rw [List.map_cons] at h
    have h1 : ¬(c = p.1) := fun hh => h (hh ▸ List.mem_cons_self _ _)
    have h2 : c ∉ L.map Prod.fst := fun hh => h (List.mem_cons_of_mem _ hh)
    have hne : ¬(p.1 = c) := fun hh => h1 hh.symm
    simp [dictGet, hne, ih h2]

lemma dictGet_isSome_of_mem_keys : ∀ (L : List (Nat × ℚ)) (c : Nat),
    c ∈ L.map Prod.fst → ∃ v, dictGet L c = some v := by
  intro L
  induction L with
  | nil => intro c hc; cases hc
  | cons p L ih =>
    intro c hc
    by_cases hpc : p.1 = c
    · exact ⟨p.2, by simp [dictGet, hpc]⟩
    · rw [List.map_cons] at hc
      rcases List.mem_cons.mp hc with h1 | h2
      · exact absurd h1.symm hpc
      · rcases ih c h2 with ⟨v, hv⟩
        exact ⟨v, by simp [dictGet, hpc, hv]⟩

lemma filter_key_eq_nil (L : List (Nat × ℚ)) (c : Nat)
    (h : c ∉ L.map Prod.fst) : L.filter (fun p => p.1 = c) = [] := by
  induction L with
  | nil => rfl
  | cons p L ih =>
    rw [List.map_cons] at h
    have h1 : ¬(c = p.1) := fun hh => h (hh ▸ List.mem_cons_self _ _)
    have h2 : c ∉ L.map Prod.fst := fun hh => h (List.mem_cons_of_mem _ hh)
    have hne : ¬(p.1 = c) := fun hh => h1 hh.symm
    simp [List.filter_cons, hne, ih h2]

lemma filter_key_of_nodup : ∀ (L : List (Nat × ℚ)),
    (L.map Prod.fst).Nodup → ∀ c : Nat, c ∈ L.map Prod.fst →
    L.filter (fun p => p.1 = c) = [(c, listVal L c)] := by
  intro L
  induction L with
  | nil => intro _ c hc; cases hc
  | cons p L ih =>
    intro hnd c hc
    rw [List.map_cons] at hnd hc
    have hnd1 := List.nodup_cons.mp hnd
    obtain ⟨p1, p2⟩ := p
    by_cases hpc : p1 = c
    · subst hpc
      have hnc : p1 ∉ L.map Prod.fst := hnd1.1
      have hfil : L.filter (fun p => p.1 = p1) = [] := filter_key_eq_nil L p1 hnc
      simp [List.filter_cons, hfil, listVal, dictGet]
    · have hcL : c ∈ L.map Prod.fst := by
        rcases List.mem_cons.mp hc with h1 | h2
        · exact absurd h1.symm hpc
        · exact h2
      simp [List.filter_cons, hpc, ih hnd1.2 c hcL, listVal, dictGet]

lemma dictGet_foldl_dictAdd (g : ℚ → ℚ) :
    ∀ (L : List (Nat × ℚ)) (m : List (Nat × ℚ)) (c : Nat),
    dictGet (L.foldl (fun m p => dictAdd m p.1 (g p.2)) m) c =
      if c ∈ L.map Prod.fst then
        some ((dictGet m c).getD 0
          + ((L.filter (fun p => p.1 = c)).map (fun p => g p.2)).sum)
      else dictGet m c := by
  intro L
  induction L with
  | nil => intro m c; simp
  | cons p L ih =>
    intro m c
    rw [List.foldl_cons, ih]
    by_cases hc : c = p.1
    · have hfc : (p :: L).filter (fun p => p.1 = c) = p :: L.filter (fun p => p.1 = c) := by
        simp [List.filter_cons, hc.symm]
      have hget : dictGet (dictAdd m p.1 (g p.2)) c = some ((dictGet m c).getD 0 + g p.2) := by
        rw [dictGet_dictAdd, if_pos hc]
      have hmem : c ∈ (p :: L).map Prod.fst := by
        rw [List.map_cons, hc]; exact List.mem_cons_self _ _
      by_cases hL : c ∈ L.map Prod.fst
      · rw [if_pos hL, if_pos hmem, hget, hfc]
        simp [add_assoc]
      · rw [if_neg hL, if_pos hmem, hget, hfc]
        rw [filter_key_eq_nil L c hL]
        simp
    · have hne : ¬(p.1 = c) := fun h => hc h.symm
      have hfc : (p :: L).filter (fun p => p.1 = c) = L.filter (fun p => p.1 = c) := by
        simp [List.filter_cons, hne]
      have hget : dictGet (dictAdd m p.1 (g p.2)) c = dictGet m c := by
        rw [dictGet_dictAdd, if_neg hc]
      have hmem : (c ∈ (p :: L).map Prod.fst) ↔ (c ∈ L.map Prod.fst) := by
        rw [List.map_cons, List.mem_cons]
        exact or_iff_right hc
      by_cases hL : c ∈ L.map Prod.fst
      · rw [if_pos hL, if_pos (hmem.mpr hL), hget, hfc]
      · rw [if_neg hL, if_neg (fun hh => hL (hmem.mp hh)), hget]

lemma dictGet_foldl_dictSet (g : ℚ → ℚ) :
    ∀ (L : List (Nat × ℚ)) (m : List (Nat × ℚ)) (c : Nat),
    (L.map Prod.fst).Nodup →
    dictGet (L.foldl (fun m p => dictSet m p.1 (g p.2)) m) c =
      if c ∈ L.map Prod.fst then (dictGet L c).map g else dictGet m c := by
  intro L
  induction L with
  | nil => intro m c _; simp
  | cons p L ih =>
    intro m c hnd
    rw [List.map_cons] at hnd
    have hnd1 := List.nodup_cons.mp hnd
    rw [List.foldl_cons, ih _ _ hnd1.2]
    by_cases hL : c ∈ L.map Prod.fst
    · have hne : ¬(p.1 = c) := fun h => hnd1.1 (h ▸ hL)
      have hmem : c ∈ (p :: L).map Prod.fst := by
        rw [List.map_cons]; exact List.mem_cons_of_mem _ hL
      rw [if_pos hL, if_pos hmem]
      simp [dictGet, hne]
    · by_cases hc : c = p.1
      · have hmem : c ∈ (p :: L).map Prod.fst := by
          rw [List.map_cons, hc]; exact List.mem_cons_self _ _
        rw [if_neg hL, if_pos hmem, dictGet_dictSet, if_pos hc]
        simp [dictGet, hc.symm]
      · have hmem : c ∉ (p :: L).map Prod.fst := by
          rw [List.map_cons, List.mem_cons]
          exact not_or.mpr ⟨hc, hL⟩
        rw [if_neg hL, if_neg hmem, dictGet_dictSet, if_neg hc]

lemma nodup_keys_foldl_dictSet (g : ℚ → ℚ) :
    ∀ (L : List (Nat × ℚ)) (m : List (Nat × ℚ)), (dictKeys m).Nodup →
    (dictKeys (L.foldl (fun m p => dictSet m p.1 (g p.2)) m)).Nodup := by
  intro L
  induction L with
  | nil => intro m h; exact h
  | cons p L ih =>
    intro m h
    rw [List.foldl_cons]
    exact ih _ (nodup_dictKeys_dictSet p.1 (g p.2) h)

lemma nodup_keys_foldl_dictAdd (g : ℚ → ℚ) :
    ∀ (L : List (Nat × ℚ)) (m : List (Nat × ℚ)), (dictKeys m).Nodup →
    (dictKeys (L.foldl (fun m p => dictAdd m p.1 (g p.2)) m)).Nodup := by
  intro L
  induction L with
  | nil => intro m h; exact h
  | cons p L ih =>
    intro m h
    rw [List.foldl_cons]
    exact ih _ (nodup_dictKeys_dictAdd p.1 (g p.2) h)

lemma dictGet_combined (cf cb : List (Nat × ℚ)) (w : ℚ)
    (hcf : (cf.map Prod.fst).Nodup) (hcb : (cb.map Prod.fst).Nodup) (c : Nat) :
    dictGet (cb.foldl (fun m p => dictAdd m p.1 (p.2 * (1 - w)))
        (cf.foldl (fun m p => dictSet m p.1 (p.2 * w)) [])) c =
      if c ∈ cf.map Prod.fst ∨ c ∈ cb.map Prod.fst then
        some (listVal cf c * w + listVal cb c * (1 - w))
      else none := by
  rw [dictGet_foldl_dictAdd (fun x => x * (1 - w)),
    dictGet_foldl_dictSet (fun x => x * w) cf [] c hcf]
  by_cases hb : c ∈ cb.map Prod.fst
  · rw [if_pos hb, if_pos (Or.inr hb), filter_key_of_nodup cb hcb c hb]
    by_cases ha : c ∈ cf.map Prod.fst
    · rw [if_pos ha]
      rcases dictGet_isSome_of_mem_keys cf c ha with ⟨v, hv⟩
      simp [hv, listVal]
    · rw [if_neg ha]
      simp [listVal, dictGet_eq_none_of_not_mem cf c ha, dictGet]
  · rw [if_neg hb]
    by_cases ha : c ∈ cf.map Prod.fst
    · rw [if_pos ha, if_pos (Or.inl ha)]
      rcases dictGet_isSome_of_mem_keys cf c ha with ⟨v, hv⟩
      simp [hv, listVal, dictGet_eq_none_of_not_mem cb c hb]
    · rw [if_neg ha, if_neg (not_or.mpr ⟨ha, hb⟩)]
      simp [dictGet]

lemma combine_recommendations_unfold (cf_recs cb_recs : List (Nat × ℚ))
    (engagement_score : ℚ) :
    combine_recommendations cf_recs cb_recs engagement_score
      = (sortDesc (cb_recs.foldl
          (fun m p => dictAdd m p.1 (p.2 * (1 - cf_weight engagement_score)))
          (cf_recs.foldl
            (fun m p => dictSet m p.1 (p.2 * cf_weight engagement_score))
            []))).take 5 := rfl

/-- C1: hybrid fusion. For duplicate-free engine result lists, every item of
the fused list scores the sum of its collaborative score weighted by
`cf_weight` (0.6 when engagement exceeds 0.5, else 0.4) and its content-based
score weighted by `1 - cf_weight`, and stems from at least one input list;
the fused list is sorted by descending fused score and holds at most five
items; on the spec's example (cf gives item 1 score 0.8 and item 2 score 0.4,
cb gives item 2 score 0.6 and item 3 score 0.5, engagement 0.6) the fused
scores are 0.48, 0.48 and 0.20. -/
theorem c1_hybrid_fusion (cf_recs cb_recs : List (Nat × ℚ))
    (engagement_score : ℚ)
    (hcf : (cf_recs.map Prod.fst).Nodup) (hcb : (cb_recs.map Prod.fst).Nodup) :
    (∀ p ∈ combine_recommendations cf_recs cb_recs engagement_score,
        p.2 = listVal cf_recs p.1 * cf_weight engagement_score
            + listVal cb_recs p.1 * (1 - cf_weight engagement_score)
          ∧ (p.1 ∈ cf_recs.map Prod.fst ∨ p.1 ∈ cb_recs.map Prod.fst))
    ∧ (combine_recommendations cf_recs cb_recs engagement_score).Sorted
        (fun a b => b.2 ≤ a.2)
    ∧ (combine_recommendations cf_recs cb_recs engagement_score).length ≤ 5
    ∧ combine_recommendations [(1, 8/10), (2, 4/10)] [(2, 6/10), (3, 5/10)]
        (6/10) = [(1, 12/25), (2, 12/25), (3, 1/5)] := by
  refine ⟨?_, ?_, ?_, ?_⟩
  · intro p hp
    rw [combine_recommendations_unfold] at hp
    have hp2 := List.take_subset 5 _ hp
    have hp3 := (sortDesc_perm _).mem_iff.mp hp2
    have hnodup : (dictKeys (cb_recs.foldl
        (fun m p => dictAdd m p.1 (p.2 * (1 - cf_weight engagement_score)))
        (cf_recs.foldl
          (fun m p => dictSet m p.1 (p.2 * cf_weight engagement_score)) []))).Nodup := by
      apply nodup_keys_foldl_dictAdd (fun x => x * (1 - cf_weight engagement_score))
      apply nodup_keys_foldl_dictSet (fun x => x * cf_weight engagement_score)
      simp [dictKeys]
    have hget := dictGet_eq_of_mem _ hnodup hp3
    rw [dictGet_combined cf_recs cb_recs (cf_weight engagement_score) hcf hcb p.1]
      at hget
    by_cases hmem : p.1 ∈ cf_recs.map Prod.fst ∨ p.1 ∈ cb_recs.map Prod.fst
    · rw [if_pos hmem] at hget
      exact ⟨(Option.some.injEq _ _ ▸ hget).symm, hmem⟩
    · rw [if_neg hmem] at hget
      exact absurd hget (by simp)
  · rw [combine_recommendations_unfold]
    exact (sortDesc_sorted _).sublist (List.take_sublist 5 _)
  · rw [combine_recommendations_unfold]
    exact List.length_take_le 5 _
  · norm_num [combine_recommendations, cf_weight, dictSet, dictAdd, sortDesc,
      List.insertionSort, List.orderedInsert]

/-- Witness for C1 at the spec's concrete example. -/
theorem c1_hybrid_fusion_witness :
    (combine_recommendations [(1, 8/10), (2, 4/10)] [(2, 6/10), (3, 5/10)]
      (6/10)).Sorted (fun a b => b.2 ≤ a.2) :=
  (c1_hybrid_fusion [(1, 8/10), (2, 4/10)] [(2, 6/10), (3, 5/10)] (6/10)
    (by decide) (by decide)).2.1

/-- C6 counterexample: the fused list does not order equal scores by
ascending content id. With cf giving item 5 score 0.5 and cb giving item 3
score 0.75 (engagement 1, weights 0.6/0.4), both items fuse to 0.3, yet
item 5 precedes item 3 because cf items are inserted into the dict first. -/
theorem c6_tie_break_counterexample :
    ¬ ((combine_recommendations [(5, 1/2)] [(3, 3/4)] 1).Pairwise
        (fun a b => a.2 = b.2 → a.1 < b.1)) := by
  have hc : combine_recommendations [(5, 1/2)] [(3, 3/4)] 1
      = [(5, 3/10), (3, 3/10)] := by
    norm_num [combine_recommendations, cf_weight, dictSet, dictAdd, sortDesc,
      List.insertionSort, List.orderedInsert]
  rw [hc]
  intro h
  have h1 := (List.pairwise_cons.mp h).1 (3, 3/10) (List.mem_singleton.mpr rfl) rfl
  exact absurd h1 (by norm_num)

/-- C6 amended: ranked outputs use Python's stable sort, so items with equal
scores keep the insertion order of the score dict (for the fused list: cf
items in cf order, then cb-only items in cb order) rather than ascending id;
on the spec's example items 1 and 2 both fuse to 0.48 and item 1 precedes
item 2 because it is inserted first, which there coincides with ascending id. -/
theorem c6_tie_break_amended :
    (∀ (combined : List (Nat × ℚ)) (sc : ℚ),
        (sortDesc combined).filter (fun p => p.2 = sc)
          = combined.filter (fun p => p.2 = sc))
    ∧ combine_recommendations [(1, 8/10), (2, 4/10)] [(2, 6/10), (3, 5/10)]
        (6/10) = [(1, 12/25), (2, 12/25), (3, 1/5)] := by
  constructor
  · intro combined sc
    exact filter_sortDesc sc combined
  · norm_num [combine_recommendations, cf_weight, dictSet, dictAdd, sortDesc,
      List.insertionSort, List.orderedInsert]

lemma getD_of_mem_enum (l : List ℚ) (p : Nat × ℚ) (hp : p ∈ l.enum) :
    l.getD p.1 0 = p.2 := by
  have h2 := List.mem_enum_iff_getElem?.mp hp
  rw [List.getD_eq_getElem?_getD, h2]
  rfl

lemma sum_map_filter (l : List Nat) (P : Nat → Prop) [DecidablePred P]
    (f : Nat → ℚ) :
    ((l.filter (fun n => P n)).map f).sum
      = (l.map (fun n => if P n then f n else 0)).sum := by
  induction l with
  | nil => rfl
  | cons a l ih =>
    by_cases h : P a <;> simp [List.filter_cons, h, ih]

lemma filter_filterMap_guard (items : List Nat) (hnd : items.Nodup) (c : Nat)
    (cond : Nat → Prop) [DecidablePred cond] (val : Nat → ℚ) :
    ((items.filterMap
        (fun x => if cond x then some (x, val x) else none)).filter
      (fun p => p.1 = c))
      = if c ∈ items ∧ cond c then [(c, val c)] else [] := by
  induction items with
  | nil => simp
  | cons a items ih =>
    have hnd1 := List.nodup_cons.mp hnd
    by_cases ha : cond a
    · have hstep : (a :: items).filterMap
          (fun x => if cond x then some (x, val x) else none)
          = (a, val a) :: items.filterMap
              (fun x => if cond x then some (x, val x) else none) := by
        simp [List.filterMap_cons, ha]
      rw [hstep]
      by_cases hac : a = c
      · subst hac
        have hnc : a ∉ items := hnd1.1
        have hrest : ((items.filterMap
            (fun x => if cond x then some (x, val x) else none)).filter
            (fun p => p.1 = a)) = [] := by
          rw [ih hnd1.2]; simp [hnc]
        simp [List.filter_cons, hrest, ha]
      · have hmm : (c ∈ a :: items) ↔ (c ∈ items) := by
          rw [List.mem_cons]; exact or_iff_right (fun h => hac h.symm)
        simp [List.filter_cons, hac, ih hnd1.2, hmm]
    · have hstep : (a :: items).filterMap
          (fun x => if cond x then some (x, val x) else none)
          = items.filterMap
              (fun x => if cond x then some (x, val x) else none) := by
        simp [List.filterMap_cons, ha]
      rw [hstep, ih hnd1.2]
      by_cases hac : a = c
      · subst hac
        simp [ha]
      · have hmm : (c ∈ a :: items) ↔ (c ∈ items) := by
          rw [List.mem_cons]; exact or_iff_right (fun h => hac h.symm)
        simp [hmm]

lemma cf_contribs_filter (s : CFState) (u : Nat) (nbrs : List Nat) (c : Nat)
    (hitems : s.items.Nodup) :
    ((nbrs.flatMap (fun n => s.items.filterMap (fun x =>
        if 1/2 < s.rating n x ∧ s.rating u x = 0 then
          some (x, s.rating n x * s.sim u n) else none))).filter
      (fun p => p.1 = c))
    = nbrs.flatMap (fun n =>
        if c ∈ s.items ∧ (1/2 < s.rating n c ∧ s.rating u c = 0) then
          [(c, s.rating n c * s.sim u n)] else []) := by
  rw [List.filter_flatMap]
  congr 1
  funext n
  exact filter_filterMap_guard s.items hitems c _ _

lemma cf_sum_eq (s : CFState) (u c : Nat) (hc : c ∈ s.items)
    (h0 : s.rating u c = 0) : ∀ nbrs : List Nat,
    ((nbrs.flatMap (fun n =>
        if c ∈ s.items ∧ (1/2 < s.rating n c ∧ s.rating u c = 0) then
          [(c, s.rating n c * s.sim u n)] else [])).map (fun p => p.2)).sum
      = cfNeighborSum s u c nbrs := by
  intro nbrs
  induction nbrs with
  | nil => simp [cfNeighborSum]
  | cons n nbrs ih =>
    by_cases hn : 1/2 < s.rating n c
    · have h1 : (if c ∈ s.items ∧ (1/2 < s.rating n c ∧ s.rating u c = 0) then
          [(c, s.rating n c * s.sim u n)] else [])
          = [(c, s.rating n c * s.sim u n)] := if_pos ⟨hc, hn, h0⟩
      have h2 : cfNeighborSum s u c (n :: nbrs)
          = s.rating n c * s.sim u n + cfNeighborSum s u c nbrs := by
        rw [cfNeighborSum, cfNeighborSum, List.filter_cons,
          if_pos (by simpa using hn)]
        simp
      rw [List.flatMap_cons, h1, h2, List.map_append, List.sum_append, ih]
      simp
    · have h1 : (if c ∈ s.items ∧ (1/2 < s.rating n c ∧ s.rating u c = 0) then
          [(c, s.rating n c * s.sim u n)] else [])
          = [] := if_neg (fun hh => hn hh.2.1)
      have h2 : cfNeighborSum s u c (n :: nbrs) = cfNeighborSum s u c nbrs := by
        rw [cfNeighborSum, cfNeighborSum, List.filter_cons,
          if_neg (by simpa using hn)]
      rw [List.flatMap_cons, h1, h2, List.map_append, List.sum_append, ih]
      simp

lemma dictGet_foldl_dictAdd_id (L : List (Nat × ℚ)) (m : List (Nat × ℚ))
    (c : Nat) :
    dictGet (L.foldl (fun m p => dictAdd m p.1 p.2) m) c =
      if c ∈ L.map Prod.fst then
        some ((dictGet m c).getD 0
          + ((L.filter (fun p => p.1 = c)).map (fun p => p.2)).sum)
      else dictGet m c := by
  have h := dictGet_foldl_dictAdd id L m c
  simpa using h

lemma nodup_keys_foldl_dictAdd_id (L : List (Nat × ℚ)) (m : List (Nat × ℚ))
    (h : (dictKeys m).Nodup) :
    (dictKeys (L.foldl (fun m p => dictAdd m p.1 p.2) m)).Nodup := by
  have h2 := nodup_keys_foldl_dictAdd id L m h
  simpa using h2

lemma argsortDesc_nodup (vals : List ℚ) : (argsortDesc vals).Nodup := by
  have hperm : List.Perm ((sortDesc vals.enum).map Prod.fst)
      (vals.enum.map Prod.fst) := (sortDesc_perm _).map _
  rw [List.enum_map_fst] at hperm
  exact (List.Perm.nodup_iff hperm).mpr (List.nodup_range _)

lemma drop_one_eq_filter_of_head (l : List Nat) (u : Nat) (hnd : l.Nodup)
    (hh : l.head? = some u) : l.drop 1 = l.filter (fun j => j ≠ u) := by
  cases l with
  | nil => cases hh
  | cons a t =>
    have ha : a = u := by simpa using hh
    subst ha
    have hat : a ∉ t := (List.nodup_cons.mp hnd).1
    have ht : t.filter (fun j => j ≠ a) = t := by
      apply List.filter_eq_self.mpr
      intro x hx
      simpa using fun h : x = a => hat (h ▸ hx)
    have ht2 : List.filter (fun j => !decide (j = a)) t = t := by
      simpa using ht
    simp [List.filter_cons, ht2]

lemma get_user_recommendations_of_not_mem (s : CFState) (user_id : String)
    (top_k : Nat) (h : user_id ∉ s.users) :
    get_user_recommendations s user_id top_k = [] := by
  rw [get_user_recommendations, if_neg h]

lemma get_user_recommendations_of_mem (s : CFState) (user_id : String)
    (top_k : Nat) (h : user_id ∈ s.users) :
    get_user_recommendations s user_id top_k
      = (sortDesc (((cfSimilarUsers s (s.users.indexOf user_id)).flatMap
          (fun n => s.items.filterMap (fun c =>
            if 1/2 < s.rating n c ∧ s.rating (s.users.indexOf user_id) c = 0
            then some (c, s.rating n c * s.sim (s.users.indexOf user_id) n)
            else none))).foldl
          (fun m p => dictAdd m p.1 p.2) [])).take top_k := by
  rw [get_user_recommendations, if_pos h]

/-- C2: collaborative-filtering recommend. On a built matrix, a user without
a matrix row gets the empty list; every returned pair carries a content item
the requesting user scored 0, present among the matrix columns, that some
selected neighbor scored above 0.5, with the accumulated score
`Σ neighbor_score × similarity` over those neighbors; the output is sorted by
descending score with at most `top_k` entries; and when the requesting user
heads the descending argsort of its similarity row (the generic case, since
self-similarity is maximal), the selected neighbors are exactly the first
five entries of that argsort with the user removed — the five most similar
other users, the argsort being ordered by descending similarity. -/
theorem c2_collaborative_recommend (s : CFState) (user_id : String)
    (top_k : Nat) (hitems : s.items.Nodup) :
    (user_id ∉ s.users → get_user_recommendations s user_id top_k = [])
    ∧ (∀ p ∈ get_user_recommendations s user_id top_k,
        s.rating (s.users.indexOf user_id) p.1 = 0
        ∧ p.1 ∈ s.items
        ∧ (∃ n ∈ cfSimilarUsers s (s.users.indexOf user_id),
            1/2 < s.rating n p.1)
        ∧ p.2 = cfNeighborSum s (s.users.indexOf user_id) p.1
            (cfSimilarUsers s (s.users.indexOf user_id)))
    ∧ (get_user_recommendations s user_id top_k).Sorted (fun a b => b.2 ≤ a.2)
    ∧ (get_user_recommendations s user_id top_k).length ≤ top_k
    ∧ ((argsortDesc (cfUserSims s (s.users.indexOf user_id))).head?
          = some (s.users.indexOf user_id) →
        cfSimilarUsers s (s.users.indexOf user_id)
          = ((argsortDesc (cfUserSims s (s.users.indexOf user_id))).filter
              (fun j => j ≠ s.users.indexOf user_id)).take 5)
    ∧ (argsortDesc (cfUserSims s (s.users.indexOf user_id))).Pairwise
        (fun i j => (cfUserSims s (s.users.indexOf user_id)).getD j 0
          ≤ (cfUserSims s (s.users.indexOf user_id)).getD i 0) := by
  refine ⟨?_, ?_, ?_, ?_, ?_, ?_⟩
  · exact get_user_recommendations_of_not_mem s user_id top_k
  · intro p hp
    by_cases hu : user_id ∈ s.users
    · rw [get_user_recommendations_of_mem s user_id top_k hu] at hp
      have hp2 := List.take_subset _ _ hp
      have hp3 := (sortDesc_perm _).mem_iff.mp hp2
      have hnodup := nodup_keys_foldl_dictAdd_id
        ((cfSimilarUsers s (s.users.indexOf user_id)).flatMap
          (fun n => s.items.filterMap (fun c =>
            if 1/2 < s.rating n c
                ∧ s.rating (s.users.indexOf user_id) c = 0 then
              some (c, s.rating n c * s.sim (s.users.indexOf user_id) n)
            else none)))
        [] (by simp [dictKeys])
      have hget := dictGet_eq_of_mem _ hnodup hp3
      rw [dictGet_foldl_dictAdd_id _ [] p.1] at hget
      by_cases hmem : p.1 ∈ ((cfSimilarUsers s (s.users.indexOf user_id)).flatMap
          (fun n => s.items.filterMap (fun c =>
            if 1/2 < s.rating n c
                ∧ s.rating (s.users.indexOf user_id) c = 0 then
              some (c, s.rating n c * s.sim (s.users.indexOf user_id) n)
            else none))).map Prod.fst
      · rw [if_pos hmem] at hget
        obtain ⟨q, hqL, hq1⟩ := List.mem_map.mp hmem
        obtain ⟨n, hn, hq⟩ := List.mem_flatMap.mp hqL
        obtain ⟨x, hx, hxq⟩ := List.mem_filterMap.mp hq
        by_cases hcond : 1/2 < s.rating n x
            ∧ s.rating (s.users.indexOf user_id) x = 0
        · rw [if_pos hcond] at hxq
          have hqx : x = p.1 := by
            have := Option.some.inj hxq
            rw [← this] at hq1
            exact hq1
          rw [hqx] at hcond hx
          have hval := Option.some.inj hget
          rw [cf_contribs_filter s (s.users.indexOf user_id)
              (cfSimilarUsers s (s.users.indexOf user_id)) p.1 hitems,
            cf_sum_eq s (s.users.indexOf user_id) p.1 hx hcond.2] at hval
          refine ⟨hcond.2, hx, ⟨n, hn, hcond.1⟩, ?_⟩
          rw [← hval]
          simp [dictGet]
        · rw [if_neg hcond] at hxq
          cases hxq
      · rw [if_neg hmem] at hget
        exact absurd hget (by simp [dictGet])
    · rw [get_user_recommendations_of_not_mem s user_id top_k hu] at hp
      cases hp
  · by_cases hu : user_id ∈ s.users
    · rw [get_user_recommendations_of_mem s user_id top_k hu]
      exact (sortDesc_sorted _).sublist (List.take_sublist _ _)
    · rw [get_user_recommendations_of_not_mem s user_id top_k hu]
      exact List.sorted_nil
  · by_cases hu : user_id ∈ s.users
    · rw [get_user_recommendations_of_mem s user_id top_k hu]
      exact List.length_take_le _ _
    · rw [get_user_recommendations_of_not_mem s user_id top_k hu]
      simp
  · intro hh
    rw [cfSimilarUsers,
      drop_one_eq_filter_of_head _ _ (argsortDesc_nodup _) hh]
  · have hs := sortDesc_sorted (cfUserSims s (s.users.indexOf user_id)).enum
    exact List.pairwise_map.mpr (List.Pairwise.imp_of_mem
      (fun ha hb hr => by
        rw [getD_of_mem_enum _ _ ((sortDesc_perm _).mem_iff.mp ha),
          getD_of_mem_enum _ _ ((sortDesc_perm _).mem_iff.mp hb)]
        exact hr) hs)

/-- Witness for C2 at a concrete two-user state: a user without a matrix row
gets the empty recommendation list. -/
theorem c2_collaborative_recommend_witness :
    get_user_recommendations
      (CFState.mk ["u", "v"] [1, 2] (fun _ _ => 0) (fun _ _ => 0)) "w" 5
      = [] :=
  (c2_collaborative_recommend
    (CFState.mk ["u", "v"] [1, 2] (fun _ _ => 0) (fun _ _ => 0)) "w" 5
    (by decide)).1 (by decide)

/-- C3 counterexample: the fitted engagement prediction is the raw regressor
output and is not clamped to the unit interval. A fitted regressor returning
2 (possible, since the training target `active_days × completion_rate ×
avg_time_spent / 100` is unbounded) makes `predict_engagement` return 2. -/
theorem c3_output_bounds_counterexample :
    predict_engagement
      (BehavioralEngine.mk (fun _ => 2) (fun _ => 1/2) (fun _ => 1/2)
        (fun _ => none) (fun v => some v))
      (UserFeatures.mk 0 0 0 0 0 0 none none) = 2
    ∧ ¬ ((2 : ℚ) ≤ 1) := by
  exact ⟨rfl, by norm_num⟩

/-- C3 amended: a feature-preparation failure yields 0.5 for all three
predictions; completion probability and churn risk lie in the unit interval
whenever the fitted classifiers return probabilities; engagement in fitted
mode is the raw regressor output (not clamped, see the counterexample); the
orchestrator's overall confidence lies in the unit interval (in fact in
[0.3, 1]) whenever the engagement argument lies in the unit interval. -/
theorem c3_output_bounds (e : BehavioralEngine) (uf : UserFeatures)
    (cf_recs cb_recs : List (Nat × ℚ)) (engagement_score : ℚ)
    (hcomp : ∀ f, 0 ≤ e.completion_model_proba f
      ∧ e.completion_model_proba f ≤ 1)
    (hchurn : ∀ f, 0 ≤ e.churn_model_proba f ∧ e.churn_model_proba f ≤ 1)
    (heng0 : 0 ≤ engagement_score) (heng1 : engagement_score ≤ 1) :
    (prepare_user_features e uf = none →
      predict_engagement e uf = 1/2
      ∧ predict_completion_probability e uf = 1/2
      ∧ predict_churn_risk e uf = 1/2)
    ∧ (0 ≤ predict_completion_probability e uf
        ∧ predict_completion_probability e uf ≤ 1)
    ∧ (0 ≤ predict_churn_risk e uf ∧ predict_churn_risk e uf ≤ 1)
    ∧ (3/10 ≤ calculate_overall_confidence cf_recs cb_recs engagement_score
        ∧ calculate_overall_confidence cf_recs cb_recs engagement_score ≤ 1) := by
  refine ⟨?_, ⟨?_, ?_⟩, ⟨?_, ?_⟩, ?_, ?_⟩
  · intro h
    refine ⟨?_, ?_, ?_⟩ <;>
      simp [predict_engagement, predict_completion_probability,
        predict_churn_risk, h]
  · cases hprep : prepare_user_features e uf with
    | none => simp only [predict_completion_probability, hprep]; norm_num
    | some f =>
      simp only [predict_completion_probability, hprep]
      exact (hcomp f).1
  · cases hprep : prepare_user_features e uf with
    | none => simp only [predict_completion_probability, hprep]; norm_num
    | some f =>
      simp only [predict_completion_probability, hprep]
      exact (hcomp f).2
  · cases hprep : prepare_user_features e uf with
    | none => simp only [predict_churn_risk, hprep]; norm_num
    | some f =>
      simp only [predict_churn_risk, hprep]
      exact (hchurn f).1
  · cases hprep : prepare_user_features e uf with
    | none => simp only [predict_churn_risk, hprep]; norm_num
    | some f =>
      simp only [predict_churn_risk, hprep]
      exact (hchurn f).2
  · rw [calculate_overall_confidence]
    apply le_min (by norm_num)
    have ha : (0:ℚ) ≤ (if cf_recs.isEmpty then 0 else 2/10) := by
      split <;> norm_num
    have hb : (0:ℚ) ≤ (if cb_recs.isEmpty then 0 else 2/10) := by
      split <;> norm_num
    have he : (0:ℚ) ≤ engagement_score * (3/10) :=
      mul_nonneg heng0 (by norm_num)
    linarith
  · rw [calculate_overall_confidence]
    exact min_le_left _ _

/-- Witness for C3 at a concrete cold-start engine (the scaler always
raises): the three predictions are the 0.5 defaults. -/
theorem c3_output_bounds_witness :
    predict_engagement
      (BehavioralEngine.mk (fun _ => 0) (fun _ => 1/2) (fun _ => 1/2)
        (fun _ => none) (fun _ => none))
      (UserFeatures.mk 0 0 0 0 0 0 none none) = 1/2
    ∧ predict_completion_probability
      (BehavioralEngine.mk (fun _ => 0) (fun _ => 1/2) (fun _ => 1/2)
        (fun _ => none) (fun _ => none))
      (UserFeatures.mk 0 0 0 0 0 0 none none) = 1/2
    ∧ predict_churn_risk
      (BehavioralEngine.mk (fun _ => 0) (fun _ => 1/2) (fun _ => 1/2)
        (fun _ => none) (fun _ => none))
      (UserFeatures.mk 0 0 0 0 0 0 none none) = 1/2 :=
  (c3_output_bounds
    (BehavioralEngine.mk (fun _ => 0) (fun _ => 1/2) (fun _ => 1/2)
      (fun _ => none) (fun _ => none))
    (UserFeatures.mk 0 0 0 0 0 0 none none) [] [] 1
    (fun _ => ⟨by norm_num, by norm_num⟩)
    (fun _ => ⟨by norm_num, by norm_num⟩)
    (by norm_num) (by norm_num)).1 rfl

/-- C4 counterexample: with engagement 0.8 and completion 0.9 the segment is
`high_performer`, yet with no effectiveness history the chosen style is
`motivational`, not the static table's `social` — `_get_best_nudge_type`
returns `motivational` for every segment when the frame is empty. -/
theorem c4_nudge_policy_counterexample :
    get_user_segment (BehaviorData.mk (some (8/10)) (some (9/10)) none)
        = "high_performer"
    ∧ get_best_nudge_type
        (get_user_segment (BehaviorData.mk (some (8/10)) (some (9/10)) none))
        [] = "motivational"
    ∧ "motivational" ≠ "social" := by
  refine ⟨?_, rfl, by decide⟩
  norm_num [get_user_segment]

/-- C4 amended: the segment is assigned by the stated first-match rules; the
style is `motivational` for every segment when the effectiveness history is
empty, and comes from the static table (high_performer→social,
at_risk→motivational, fast_learner→educational, steady_learner→urgency) when
any history exists — the effectiveness values themselves never influence the
style (any two nonempty histories select the same style). -/
theorem c4_nudge_policy (b : BehaviorData) (seg : String)
    (d1 d2 : List NudgeRecord) (hd1 : d1 ≠ []) (hd2 : d2 ≠ []) :
    ((b.engagement_score.getD (1/2) > 7/10
        ∧ b.completion_rate.getD (1/2) > 8/10) →
      get_user_segment b = "high_performer")
    ∧ (¬(b.engagement_score.getD (1/2) > 7/10
          ∧ b.completion_rate.getD (1/2) > 8/10) →
        (b.engagement_score.getD (1/2) < 3/10
          ∨ b.completion_rate.getD (1/2) < 3/10) →
        get_user_segment b = "at_risk")
    ∧ (¬(b.engagement_score.getD (1/2) > 7/10
          ∧ b.completion_rate.getD (1/2) > 8/10) →
        ¬(b.engagement_score.getD (1/2) < 3/10
          ∨ b.completion_rate.getD (1/2) < 3/10) →
        b.learning_velocity.getD 0 > 2 →
        get_user_segment b = "fast_learner")
    ∧ (¬(b.engagement_score.getD (1/2) > 7/10
          ∧ b.completion_rate.getD (1/2) > 8/10) →
        ¬(b.engagement_score.getD (1/2) < 3/10
          ∨ b.completion_rate.getD (1/2) < 3/10) →
        ¬(b.learning_velocity.getD 0 > 2) →
        get_user_segment b = "steady_learner")
    ∧ get_best_nudge_type seg [] = "motivational"
    ∧ get_best_nudge_type seg d1 = get_best_nudge_type seg d2
    ∧ get_best_nudge_type "high_performer" d1 = "social"
    ∧ get_best_nudge_type "at_risk" d1 = "motivational"
    ∧ get_best_nudge_type "fast_learner" d1 = "educational"
    ∧ get_best_nudge_type "steady_learner" d1 = "urgency" := by
  refine ⟨?_, ?_, ?_, ?_, rfl, ?_, ?_, ?_, ?_, ?_⟩
  · intro h
    simp only [get_user_segment]
    rw [if_pos h]
  · intro h1 h2
    simp only [get_user_segment]
    rw [if_neg h1, if_pos h2]
  · intro h1 h2 h3
    simp only [get_user_segment]
    rw [if_neg h1, if_neg h2, if_pos h3]
  · intro h1 h2 h3
    simp only [get_user_segment]
    rw [if_neg h1, if_neg h2, if_neg h3]
  · cases d1 with
    | nil => exact absurd rfl hd1
    | cons a l =>
      cases d2 with
      | nil => exact absurd rfl hd2
      | cons b m => rfl
  all_goals
    cases d1 with
    | nil => exact absurd rfl hd1
    | cons a l => rfl

/-- Witness for C4: the steady-learner style comes from the static table once
any effectiveness history exists, whatever its content. -/
theorem c4_nudge_policy_witness :
    get_best_nudge_type "steady_learner" [NudgeRecord.mk "social" 1]
      = "urgency" :=
  (c4_nudge_policy (BehaviorData.mk none none none) "steady_learner"
    [NudgeRecord.mk "social" 1] [NudgeRecord.mk "social" 0]
    (by simp) (by simp)).2.2.2.2.2.2.2.2.2

lemma recommend_content_no_in_progress (content_data : List ContentRow)
    (ccids : List Nat) (pct ptp : List String)
    (hg : content_data.filter
        (fun c => preference_pass ccids [] pct ptp c) ≠ []) :
    recommend_content content_data ccids [] pct ptp
      = (content_data.filter
          (fun c => preference_pass ccids [] pct ptp c)).take 3 := by
  simp only [recommend_content]
  have h1 : content_data.filter (fun c => (c.id ∈ ([] : List Nat))) = [] := by
    simp
  rw [h1, List.nil_append]
  cases hfe : content_data.filter (fun c => preference_pass ccids [] pct ptp c) with
  | nil => exact absurd hfe hg
  | cons a l => simp

/-- C5 counterexample: `ContentBasedEngine.get_content_recommendations`
applies no difficulty gate at all. A user with zero completed items is
recommended the sole catalog item even though its tier is `advanced`, and no
fallback is involved (the engine has none; the result comes from its main
path). -/
theorem c5_difficulty_gate_counterexample :
    get_content_recommendations
      [ContentRow.mk 1 "t" "lesson" "advanced" 10 0 []]
      (CBUserProfile.mk none []) [] 5
      = [(1, 1/10)]
    ∧ (ContentRow.mk 1 "t" "lesson" "advanced" 10 0 []).difficulty_level
        = "advanced"
    ∧ ("advanced" : String) ≠ "beginner" := by
  refine ⟨?_, rfl, by decide⟩
  have hscore : calculate_content_score
      (ContentRow.mk 1 "t" "lesson" "advanced" 10 0 [])
      (CBUserProfile.mk none []) = 1/10 := by
    rw [calculate_content_score]
    rw [if_neg (by decide), if_neg (by decide), if_neg (by decide)]
    rw [min_eq_left (by norm_num)]
    norm_num
  simp only [get_content_recommendations]
  have hav : [ContentRow.mk 1 "t" "lesson" "advanced" 10 0 []].filter
      (fun c => (c.id ∉ ([] : List Nat))) = [ContentRow.mk 1 "t" "lesson" "advanced" 10 0 []] := by
    simp
  rw [hav]
  simp only [List.map, hscore, List.isEmpty_cons]
  simp [sortDesc, List.insertionSort, List.orderedInsert]

/-- C5 amended: the difficulty gate lives only in the rule-based
`recommend_content` preference step. When the user has no in-progress items
and at least one catalog item passes the preference filter (so the fallback
does not fire), a user with fewer than 5 completed items receives only
beginner-tier items and a user with 10 or more completed items receives no
beginner-tier item; in-progress items and the fallback path bypass the gate,
and the ContentBasedEngine applies no gate (see the counterexample). -/
theorem c5_difficulty_gate (content_data : List ContentRow)
    (ccids : List Nat) (pct ptp : List String)
    (hg : content_data.filter
        (fun c => preference_pass ccids [] pct ptp c) ≠ []) :
    (ccids.length < 5 →
      ∀ c ∈ recommend_content content_data ccids [] pct ptp,
        c.difficulty_level = "beginner")
    ∧ (10 ≤ ccids.length →
      ∀ c ∈ recommend_content content_data ccids [] pct ptp,
        c.difficulty_level ≠ "beginner") := by
  rw [recommend_content_no_in_progress content_data ccids pct ptp hg]
  constructor
  · intro hlen c hc
    have hc2 := List.take_subset _ _ hc
    have hpass : preference_pass ccids [] pct ptp c := by
      simpa using List.of_mem_filter hc2
    simp only [preference_pass] at hpass
    by_contra hne
    exact hpass.2.2.1 ⟨hlen, hne⟩
  · intro hlen c hc
    have hc2 := List.take_subset _ _ hc
    have hpass : preference_pass ccids [] pct ptp c := by
      simpa using List.of_mem_filter hc2
    simp only [preference_pass] at hpass
    intro hb
    exact hpass.2.2.2.1 ⟨hlen, hb⟩

/-- Witness for C5 at a one-item beginner catalog: the gated recommendation
for a user with zero completed items is beginner-tier. -/
theorem c5_difficulty_gate_witness :
    (ContentRow.mk 1 "t" "lesson" "beginner" 10 0 ["a"]).difficulty_level
      = "beginner" :=
  (c5_difficulty_gate [ContentRow.mk 1 "t" "lesson" "beginner" 10 0 ["a"]]
    [] [] ["a"] (by decide)).1 (by decide)
    (ContentRow.mk 1 "t" "lesson" "beginner" 10 0 ["a"]) (by decide)

/-- C7: error containment. If any sub-engine call raises during the
orchestrator's request handling — whichever of the six call sites it is —
the `except` branch returns the fixed degraded response object (empty
recommendations, three 0.5 predictions, generic motivational nudge,
confidence 0.3) instead of propagating; and a failure while preparing one
user's features degrades that user's three predictions to the 0.5 cold-start
defaults. -/
theorem c7_error_containment
    (cf_recs cb_recs : Except String (List (Nat × ℚ)))
    (engagement_pred completion_pred churn_risk : Except String ℚ)
    (optimized_nudge : Except String NudgeResult)
    (e : BehavioralEngine) (uf : UserFeatures) :
    (∀ msg, cf_recs = Except.error msg →
      get_advanced_recommendations cf_recs cb_recs engagement_pred
        completion_pred churn_risk optimized_nudge = defaultAdvancedResponse)
    ∧ (∀ msg, cb_recs = Except.error msg →
      get_advanced_recommendations cf_recs cb_recs engagement_pred
        completion_pred churn_risk optimized_nudge = defaultAdvancedResponse)
    ∧ (∀ msg, engagement_pred = Except.error msg →
      get_advanced_recommendations cf_recs cb_recs engagement_pred
        completion_pred churn_risk optimized_nudge = defaultAdvancedResponse)
    ∧ (∀ msg, completion_pred = Except.error msg →
      get_advanced_recommendations cf_recs cb_recs engagement_pred
        completion_pred churn_risk optimized_nudge = defaultAdvancedResponse)
    ∧ (∀ msg, churn_risk = Except.error msg →
      get_advanced_recommendations cf_recs cb_recs engagement_pred
        completion_pred churn_risk optimized_nudge = defaultAdvancedResponse)
    ∧ (∀ msg, optimized_nudge = Except.error msg →
      get_advanced_recommendations cf_recs cb_recs engagement_pred
        completion_pred churn_risk optimized_nudge = defaultAdvancedResponse)
    ∧ (prepare_user_features e uf = none →
        predict_engagement e uf = 1/2
        ∧ predict_completion_probability e uf = 1/2
        ∧ predict_churn_risk e uf = 1/2) := by
  refine ⟨?_, ?_, ?_, ?_, ?_, ?_, ?_⟩
  · intro msg h
    subst h
    cases cb_recs <;> cases engagement_pred <;> cases completion_pred <;>
      cases churn_risk <;> cases optimized_nudge <;> rfl
  · intro msg h
    subst h
    cases cf_recs <;> cases engagement_pred <;> cases completion_pred <;>
      cases churn_risk <;> cases optimized_nudge <;> rfl
  · intro msg h
    subst h
    cases cf_recs <;> cases cb_recs <;> cases completion_pred <;>
      cases churn_risk <;> cases optimized_nudge <;> rfl
  · intro msg h
    subst h
    cases cf_recs <;> cases cb_recs <;> cases engagement_pred <;>
      cases churn_risk <;> cases optimized_nudge <;> rfl
  · intro msg h
    subst h
    cases cf_recs <;> cases cb_recs <;> cases engagement_pred <;>
      cases completion_pred <;> cases optimized_nudge <;> rfl
  · intro msg h
    subst h
    cases cf_recs <;> cases cb_recs <;> cases engagement_pred <;>
      cases completion_pred <;> cases churn_risk <;> rfl
  · intro h
    refine ⟨?_, ?_, ?_⟩ <;>
      simp [predict_engagement, predict_completion_probability,
        predict_churn_risk, h]

/-- Witness for C7: a raising collaborative engine (database failure) still
yields the degraded default response. -/
theorem c7_error_containment_witness :
    get_advanced_recommendations (Except.error "db down") (Except.ok [])
      (Except.ok (1/2)) (Except.ok (1/2)) (Except.ok (1/2))
      (Except.ok (NudgeResult.mk "m" "motivational" (1/2) none none))
      = defaultAdvancedResponse :=
  (c7_error_containment (Except.error "db down") (Except.ok [])
    (Except.ok (1/2)) (Except.ok (1/2)) (Except.ok (1/2))
    (Except.ok (NudgeResult.mk "m" "motivational" (1/2) none none))
    (BehavioralEngine.mk (fun _ => 0) (fun _ => 0) (fun _ => 0)
      (fun _ => none) (fun _ => none))
    (UserFeatures.mk 0 0 0 0 0 0 none none)).1 "db down" rfl

/-- C8 counterexample: `initialize` mutates the live singleton engines in
place, one awaited build after another; after the first build step a reader
observes the new interaction matrix next to the old content index — a mixed,
incoherent model state, contradicting an atomic snapshot swap. -/
theorem c8_model_swap_counterexample :
    ¬ coherentState (runSteps ((initSteps 1).take 1)
        (ModelState.mk (some 0) (some 0) (some 0) (some 0))) := by
  intro h
  have h1 := h.1
  simp [initSteps, runSteps] at h1

/-- C8 amended: running the full four-step initialize sequence does leave the
state at the new version (and hence coherent), but the swap is not atomic:
the intermediate state after the first step carries the new interaction
matrix (version 1) next to the old content index (version 0), so a reader
scheduled between the awaited builds observes a mixed model version. -/
theorem c8_model_swap (v : Nat) (s : ModelState) :
    runSteps (initSteps v) s
      = ModelState.mk (some v) (some v) (some v) (some v)
    ∧ coherentState (runSteps (initSteps v) s)
    ∧ (runSteps ((initSteps 1).take 1)
          (ModelState.mk (some 0) (some 0) (some 0) (some 0))).user_item_matrix
        = some 1
    ∧ (runSteps ((initSteps 1).take 1)
          (ModelState.mk (some 0) (some 0) (some 0) (some 0))).content_features
        = some 0 := by
  exact ⟨rfl, ⟨rfl, rfl⟩, rfl, rfl⟩

/-- C9: template determinism. The template-selection step of
`_generate_personalized_nudge` is the pure function
`hash(user_id) mod template_count`: for a fixed process hash and style, any
two profiles with the same user id select the same template (independently
of every other profile field), and the selected template is one of the
style's variants. -/
theorem c9_template_determinism (stringHash : String → Nat)
    (nudge_type : String) (p1 p2 : NudgeUserProfile)
    (h : p1.user_id = p2.user_id) :
    select_template stringHash nudge_type p1
      = select_template stringHash nudge_type p2
    ∧ select_template stringHash nudge_type p1 ∈ nudge_variants nudge_type := by
  constructor
  · rw [select_template, select_template, h]
  · rw [select_template]
    have hlen : (nudge_variants nudge_type).length = 3 := by
      rw [nudge_variants]
      split_ifs <;> rfl
    have hidx : stringHash (p1.user_id.getD "") % (nudge_variants nudge_type).length
        < (nudge_variants nudge_type).length :=
      Nat.mod_lt _ (by rw [hlen]; norm_num)
    rw [List.getD_eq_getElem _ _ hidx]
    exact List.getElem_mem _

/-- Witness for C9: two profiles sharing user id `alice` but differing in
every other field select the same urgency template. -/
theorem c9_template_determinism_witness :
    select_template String.length "urgency"
      (NudgeUserProfile.mk (some "alice") [] none [])
      = select_template String.length "urgency"
        (NudgeUserProfile.mk (some "alice") ["stocks"] (some "bold") ["growth"]) :=
  (c9_template_determinism String.length "urgency"
    (NudgeUserProfile.mk (some "alice") [] none [])
    (NudgeUserProfile.mk (some "alice") ["stocks"] (some "bold") ["growth"])
    rfl).1

/-- C10: the nudge confidence ignores the user segment. Any two segment
values give equal results; the confidence is 0.5 on an empty history or an
empty slice for the nudge type, and otherwise equals the mean effectiveness
of all records of that type (across all segments) scaled by
`min(1, sample_size/50)`. -/
theorem c10_confidence_ignores_segment (nudge_type s1 s2 : String)
    (data : List NudgeRecord) :
    calculate_nudge_confidence nudge_type s1 data
      = calculate_nudge_confidence nudge_type s2 data
    ∧ calculate_nudge_confidence nudge_type s1 [] = 1/2
    ∧ (data ≠ [] → data.filter (fun r => r.nudge_type = nudge_type) = [] →
        calculate_nudge_confidence nudge_type s1 data = 1/2)
    ∧ (data.filter (fun r => r.nudge_type = nudge_type) ≠ [] →
        calculate_nudge_confidence nudge_type s1 data
          = (((data.filter (fun r => r.nudge_type = nudge_type)).map
              (fun r => r.effectiveness_score)).sum
              / (data.filter (fun r => r.nudge_type = nudge_type)).length)
            * min 1
              (((data.filter (fun r => r.nudge_type = nudge_type)).length : ℚ)
                / 50)) := by
  refine ⟨rfl, rfl, ?_, ?_⟩
  · intro hd hf
    cases data with
    | nil => exact absurd rfl hd
    | cons a l => simp [calculate_nudge_confidence, hf]
  · intro hf
    cases data with
    | nil => simp at hf
    | cons a l =>
      cases hx : (a :: l).filter (fun r => r.nudge_type = nudge_type) with
      | nil => exact absurd hx hf
      | cons b m => simp [calculate_nudge_confidence, hx]

/-- Witness for C10 at a one-record history: the confidence for the matching
type is the same under two different segments. -/
theorem c10_confidence_ignores_segment_witness :
    calculate_nudge_confidence "social" "high_performer"
        [NudgeRecord.mk "social" 1]
      = calculate_nudge_confidence "social" "at_risk"
        [NudgeRecord.mk "social" 1]
    ∧ calculate_nudge_confidence "social" "high_performer" [] = 1/2 := by
  have h := c10_confidence_ignores_segment "social" "high_performer" "at_risk"
    [NudgeRecord.mk "social" 1]
  exact ⟨h.1, h.2.1⟩
